import Mathlib

/-!
Shallow embedding of the algorithmic core of the `data-collection-stocks`
repository, and proofs about its claimed properties.

All machine floats of the source are modelled as rationals (`ℚ`); the
floating-point tolerance clauses of the spec are discussed at each theorem.
Sources embedded here:
* `src/data/stock_real_data.py` — cold full-recompute of technical indicators
  (`process_technical_indicators`), warm incremental update
  (`calculate_realtime_technical_indicators`).
* `src/News_analysis/price_news_correlator.py` — anomaly detector, correlation
  scorer, retention/persistence of correlation records.
* `src/indicator_analysis/gpr_predictor.py` — training-data preparation and
  the multi-step forecast loop.
* `src/indicator_analysis/multi_factor_alert.py` — forecast-deviation alerts.
* `src/indicator_analysis/stock_analysis_decision.py` — sub-scores and the
  composite decision score.
-/

namespace StockCore

/-- Arithmetic mean of a list of rationals (`np.mean` / pandas `.mean()`).
For the empty list this is `0/0 = 0`; every use below guards emptiness
separately, mirroring NaN propagation in the source. -/
def listMean (l : List ℚ) : ℚ := l.sum / l.length

/-- The last `n` elements of a list (python `l[-n:]`). -/
def lastN (n : ℕ) (l : List α) : List α := l.drop (l.length - n)

/-! ## Anomaly detector

`src/News_analysis/price_news_correlator.py`, `detect_price_anomalies`
(lines 139–201).  The SQL query returns the most recent rows first
(`ORDER BY 时间 DESC LIMIT 100`); `data` below is that list. -/

/-- One row of the realtime table as fetched by `detect_price_anomalies`:
`时间 as time, 当前价格 as price, 成交量_手 as volume, 涨跌幅_百分比 as change_pct`.
The timestamp is encoded as an integer key. -/
structure RtRecord where
  time : ℤ
  price : ℚ
  volume : ℚ
  change_pct : ℚ
deriving DecidableEq

/-- `anomaly_type` values emitted by the detector. -/
inductive AnomalyType
  | surge
  | plunge
deriving DecidableEq

/-- An anomaly dict as built by `detect_price_anomalies` (stock code/name
omitted: they are constant per call). -/
structure Anomaly where
  anomaly_time : ℤ
  price_change_pct : ℚ
  current_price : ℚ
  volume : ℚ
  volume_spike_ratio : ℚ
  anomaly_type : AnomalyType
deriving DecidableEq

/-- `avg_volume = np.mean([d['volume'] for d in data[10:]])`.
`np.mean` of an empty slice is NaN, modelled as `none`. -/
def avg_volume (data : List RtRecord) : Option ℚ :=
  let vols := (data.drop 10).map (·.volume)
  if vols.isEmpty then none else some (listMean vols)

/-- `volume_spike = current_volume / avg_volume if avg_volume > 0 else 1`.
A NaN average (`none`) fails the `> 0` test, giving 1. -/
def volume_spike (av : Option ℚ) (v : ℚ) : ℚ :=
  match av with
  | some a => if 0 < a then v / a else 1
  | none => 1

/-- The flagging condition of `detect_price_anomalies`:
`is_price_anomaly or (is_volume_spike and price_change >= 2.0)` where
`is_price_anomaly = price_change >= price_change_threshold` and
`is_volume_spike = volume_spike >= volume_spike_threshold` and
`price_change = abs(change_pct)`. -/
def is_anomaly_rec (pt vt : ℚ) (av : Option ℚ) (r : RtRecord) : Bool :=
  let price_change := |r.change_pct|
  let vs := volume_spike av r.volume
  decide (pt ≤ price_change) || (decide (vt ≤ vs) && decide ((2:ℚ) ≤ price_change))

/-- The anomaly dict appended for a qualifying record:
`anomaly_type = 'surge' if change_pct > 0 else 'plunge'`. -/
def mk_anomaly (av : Option ℚ) (r : RtRecord) : Anomaly :=
  { anomaly_time := r.time
    price_change_pct := r.change_pct
    current_price := r.price
    volume := r.volume
    volume_spike_ratio := volume_spike av r.volume
    anomaly_type := if 0 < r.change_pct then .surge else .plunge }

/-- The `for i, record in enumerate(data[:10])` accumulation loop. -/
def detect_loop (pt vt : ℚ) (av : Option ℚ) : List RtRecord → List Anomaly
  | [] => []
  | r :: rs =>
      if is_anomaly_rec pt vt av r then mk_anomaly av r :: detect_loop pt vt av rs
      else detect_loop pt vt av rs

/-- `detect_price_anomalies` over a fetched window `data` (most recent first):
returns `[]` when fewer than 2 rows, otherwise scans the most recent 10. -/
def detect_price_anomalies (pt vt : ℚ) (data : List RtRecord) : List Anomaly :=
  if data.length < 2 then []
  else detect_loop pt vt (avg_volume data) (data.take 10)

/-! ## Correlator

`src/News_analysis/price_news_correlator.py`: `calculate_correlation_score`
(lines 268–325), the correlation-building loop of `analyze_stock`
(lines 440–462) and `save_anomaly_and_correlations` (lines 345–407). -/

/-- A candidate news item as built by `retrieve_related_news`: the signed
time delta in minutes (`time_delta_minutes`, negative when the news precedes
the anomaly), whether the stock's code or name appears in the text
(`mentions_stock`), and the externally stored sentiment score
(`_get_news_sentiment`, `none` when the news has no stored sentiment). -/
structure NewsItem where
  time_delta_minutes : ℤ
  mentions_stock : Bool
  sentiment : Option ℚ
deriving DecidableEq

/-- `correlation_type` values assigned by `calculate_correlation_score`. -/
inductive CorrelationType
  | cause
  | potential_cause
  | reaction
  | potential_reaction
  | unrelated
deriving DecidableEq

/-- Python `round(x, 4)`: round to 4 decimal places.  Every score produced
below is an exact multiple of `1/10`, so the tie-breaking convention of
Python's banker rounding never matters and `round` on `ℚ` is faithful. -/
def round4 (x : ℚ) : ℚ := (round (x * 10000) : ℤ) / 10000

/-- The raw (pre-rounding) score of `calculate_correlation_score`:
time-proximity term + explicit-mention term + sentiment-alignment term. -/
def raw_correlation_score (price_change_pct : ℚ) (n : NewsItem) : ℚ :=
  let time_delta_abs := |n.time_delta_minutes|
  let time_score : ℚ :=
    if time_delta_abs < 30 then 4/10
    else if time_delta_abs < 60 then 3/10
    else if time_delta_abs < 120 then 2/10
    else 1/10
  let mention_score : ℚ := if n.mentions_stock then 3/10 else 0
  let sentiment_score : ℚ :=
    match n.sentiment with
    | none => 0
    | some s =>
        let price_direction : ℤ := if 0 < price_change_pct then 1 else -1
        let sentiment_direction : ℤ := if 0 < s then 1 else -1
        if price_direction = sentiment_direction then 3/10
        else if |s| < 2/10 then 1/10
        else 0
  time_score + mention_score + sentiment_score

/-- `calculate_correlation_score` returns `round(score, 4)`. -/
def calculate_correlation_score (price_change_pct : ℚ) (n : NewsItem) : ℚ :=
  round4 (raw_correlation_score price_change_pct n)

/-- The `correlation_type` classification of `calculate_correlation_score`:
news before the anomaly (`time_delta_minutes < 0`) with score ≥ 0.6 is
`cause`, ≥ 0.3 `potential_cause`; news after, `reaction` resp.
`potential_reaction`; otherwise the initial value `unrelated` stands. -/
def correlation_type_of (price_change_pct : ℚ) (n : NewsItem) : CorrelationType :=
  let score := raw_correlation_score price_change_pct n
  if n.time_delta_minutes < 0 then
    if 6/10 ≤ score then .cause
    else if 3/10 ≤ score then .potential_cause
    else .unrelated
  else
    if 6/10 ≤ score then .reaction
    else if 3/10 ≤ score then .potential_reaction
    else .unrelated

/-- A correlation record as kept by `analyze_stock` and inserted by
`save_anomaly_and_correlations`. -/
structure CorrelationRecord where
  news_item : NewsItem
  correlation_score : ℚ
  correlation_type : CorrelationType
deriving DecidableEq

/-- The correlation-building loop of `analyze_stock`: for each related news
item compute the score and keep the record only when
`score >= min_correlation_score`. -/
def build_correlations (min_correlation_score : ℚ) (price_change_pct : ℚ)
    (related_news : List NewsItem) : List CorrelationRecord :=
  related_news.filterMap fun n =>
    let score := calculate_correlation_score price_change_pct n
    if min_correlation_score ≤ score then
      some { news_item := n
             correlation_score := score
             correlation_type := correlation_type_of price_change_pct n }
    else none

/-- `correlations.sort(key=lambda x: x['correlation_score'], reverse=True)`
followed by `save_anomaly_and_correlations`, which inserts every element of
the sorted list.  Python's stable descending sort is modelled by a stable
merge sort with the `≥`-on-score ordering.  The result is exactly the list
of persisted records. -/
def saved_correlations (min_correlation_score : ℚ) (price_change_pct : ℚ)
    (related_news : List NewsItem) : List CorrelationRecord :=
  (build_correlations min_correlation_score price_change_pct related_news).mergeSort
    (fun a b => decide (b.correlation_score ≤ a.correlation_score))

/-! ## Incremental indicator engine

Cold full recompute: `src/data/stock_real_data.py`, `process_technical_indicators`
(lines 109–260, in particular the `calculate_macd` / `calculate_rsi` /
`calculate_bollinger_bands` / `calculate_ma` closures at lines 156–189).
Warm incremental update: `calculate_realtime_technical_indicators`
(lines 542–960, the incremental section at lines 785–878). -/

/-- `alpha = 2 / (span + 1)`, the smoothing factor of an EMA with the given
span (both paths use spans 12, 26, 9). -/
def alpha (span : ℕ) : ℚ := 2 / (span + 1)

/-- One step of the EMA recurrence used by both paths:
`new_ema = value * alpha + ema * (1 - alpha)`. -/
def ema_step (a e v : ℚ) : ℚ := v * a + e * (1 - a)

/-- The tail of a pandas `ewm(span, adjust=False).mean()` series continued
from the running value `e`: each element is the recurrence applied to the
previous element. -/
def ewm_from (a e : ℚ) : List ℚ → List ℚ
  | [] => []
  | v :: vs => ema_step a e v :: ewm_from a (ema_step a e v) vs

/-- A full pandas `ewm(span, adjust=False).mean()` series: its first element
is the first sample, the rest follow the recurrence. -/
def ewm_series (a : ℚ) : List ℚ → List ℚ
  | [] => []
  | v :: vs => v :: ewm_from a v vs

/-- Cold `calculate_macd`: `macd = (short_ema - long_ema) * 2` pointwise over
the EMA-12 and EMA-26 series. -/
def cold_macd_series (closes : List ℚ) : List ℚ :=
  List.zipWith (fun s l => (s - l) * 2)
    (ewm_series (alpha 12) closes) (ewm_series (alpha 26) closes)

/-- Cold `calculate_macd`: `signal = macd.ewm(span=9, adjust=False).mean()`. -/
def cold_signal_series (closes : List ℚ) : List ℚ :=
  ewm_series (alpha 9) (cold_macd_series closes)

/-- Cold `calculate_macd`: `hist = macd - signal` pointwise. -/
def cold_hist_series (closes : List ℚ) : List ℚ :=
  List.zipWith (· - ·) (cold_macd_series closes) (cold_signal_series closes)

/-- The value of a series at the last sample (`.iloc[-1]`); `none` for an
empty series. -/
def cold_macd_last (closes : List ℚ) : Option ℚ := (cold_macd_series closes).getLast?

/-- Final value of the cold Signal series. -/
def cold_signal_last (closes : List ℚ) : Option ℚ := (cold_signal_series closes).getLast?

/-- Final value of the cold MACD-histogram series. -/
def cold_hist_last (closes : List ℚ) : Option ℚ := (cold_hist_series closes).getLast?

/-- `data['收盘价'].diff()`: consecutive price differences (the leading NaN of
pandas `diff` is dropped; rolling windows below account for it). -/
def price_deltas (closes : List ℚ) : List ℚ :=
  List.zipWith (· - ·) closes.tail closes

/-- Cold `calculate_rsi`: `avg_gain = up.rolling(14).mean()` at the last
sample; `up = delta.clip(lower=0)`.  Defined (non-NaN) once at least 14
deltas exist, i.e. at least 15 samples. -/
def cold_avg_gain (closes : List ℚ) : Option ℚ :=
  let gains := (price_deltas closes).map (fun d => max d 0)
  if gains.length < 14 then none else some (listMean (lastN 14 gains))

/-- Cold `calculate_rsi`: `avg_loss = down.rolling(14).mean()` at the last
sample; `down = -delta.clip(upper=0)`. -/
def cold_avg_loss (closes : List ℚ) : Option ℚ :=
  let losses := (price_deltas closes).map (fun d => max (-d) 0)
  if losses.length < 14 then none else some (listMean (lastN 14 losses))

/-- Cold `calculate_rsi` final value: `rsi = 100 - 100/(1 + avg_gain/avg_loss)`.
When `avg_loss = 0` the float quotient is `inf` and the expression evaluates
to 100, which is also the engine's documented convention. -/
def cold_rsi (closes : List ℚ) : Option ℚ :=
  match cold_avg_gain closes, cold_avg_loss closes with
  | some g, some l => some (if l = 0 then 100 else 100 - 100 / (1 + g / l))
  | _, _ => none

/-- Sum of squared deviations from the mean, the common core of the two
standard-deviation conventions. -/
def sq_dev_sum (l : List ℚ) : ℚ := (l.map (fun x => (x - listMean l) ^ 2)).sum

/-- Cold Bollinger middle value: `sma = close.rolling(20).mean()` at the last
sample. -/
def cold_sma20 (closes : List ℚ) : Option ℚ :=
  if closes.length < 20 then none else some (listMean (lastN 20 closes))

/-- Cold Bollinger squared deviation: pandas `rolling(20).std()` uses the
sample convention (ddof = 1), so the final squared std is `sq_dev_sum / 19`.
The bands are `sma ± 2·√(this)`; comparisons of bands with equal `sma`
reduce to comparisons of the squared stds, which keeps the model in `ℚ`. -/
def cold_var20 (closes : List ℚ) : Option ℚ :=
  if closes.length < 20 then none else some (sq_dev_sum (lastN 20 closes) / 19)

/-- Cold `calculate_ma`: `close.rolling(window).mean()` at the last sample. -/
def cold_ma (window : ℕ) (closes : List ℚ) : Option ℚ :=
  if closes.length < window then none else some (listMean (lastN window closes))

/-- The per-instrument incremental state `tech_indicators_state[stock_name]`.
`var20` carries the square of the stored `std20` so the model stays in `ℚ`
(only `std20 ** 2` is ever needed to compare band values). -/
structure TechState where
  prices : List ℚ
  last_price : ℚ
  short_ema : ℚ
  long_ema : ℚ
  signal : ℚ
  avg_gain : ℚ
  avg_loss : ℚ
  sma20 : ℚ
  var20 : ℚ
  ma5_values : List ℚ
  ma10_values : List ℚ
deriving DecidableEq

/-- `list.append(p)` followed by `if len(list) > cap: list.pop(0)`. -/
def buffer_push (cap : ℕ) (b : List ℚ) (p : ℚ) : List ℚ :=
  let b2 := b ++ [p]
  if cap < b2.length then b2.tail else b2

/-- The values written into the realtime technical-indicator row at each warm
step.  `Upper_Band = sma20 + 2·√var20` and `Lower_Band = sma20 - 2·√var20`;
the pair `(sma20, var20)` determines both bands.  `ma5`/`ma10` are `none`
when the buffer has not reached its required length (the row stores NULL). -/
structure Snapshot where
  macd : ℚ
  signal : ℚ
  macd_hist : ℚ
  rsi : ℚ
  sma20 : ℚ
  var20 : ℚ
  ma5 : Option ℚ
  ma10 : Option ℚ
deriving DecidableEq

/-- The warm incremental update of `calculate_realtime_technical_indicators`
(lines 785–878): price buffer capped at 100; closed-form EMA recurrences for
MACD/Signal; 1/14-weighted RSI average gain/loss; Bollinger mean/std
recomputed over the last 20 buffered closes (`np.std`, population
convention, kept as a squared value) with the previous state reused when
fewer than 20 closes are buffered; fixed-length MA buffers. -/
def warm_update (s : TechState) (current_price : ℚ) : TechState × Snapshot :=
  let prices2 := buffer_push 100 s.prices current_price
  let new_short_ema := ema_step (alpha 12) s.short_ema current_price
  let new_long_ema := ema_step (alpha 26) s.long_ema current_price
  let new_macd := (new_short_ema - new_long_ema) * 2
  let new_signal := ema_step (alpha 9) s.signal new_macd
  let macd_hist := new_macd - new_signal
  let price_change := current_price - s.last_price
  let current_gain := if 0 < price_change then price_change else 0
  let current_loss := if 0 < price_change then 0 else -price_change
  let new_avg_gain := (s.avg_gain * 13 + current_gain) / 14
  let new_avg_loss := (s.avg_loss * 13 + current_loss) / 14
  let rsi := if new_avg_loss = 0 then 100
             else 100 - 100 / (1 + new_avg_gain / new_avg_loss)
  let prices_window := lastN 20 prices2
  let sma20 := if prices_window.length < 20 then s.sma20 else listMean prices_window
  let var20 := if prices_window.length < 20 then s.var20 else sq_dev_sum prices_window / 20
  let ma5_values := buffer_push 5 s.ma5_values current_price
  let ma10_values := buffer_push 10 s.ma10_values current_price
  let ma5 := if ma5_values.length = 5 then some (listMean ma5_values) else none
  let ma10 := if ma10_values.length = 10 then some (listMean ma10_values) else none
  (⟨prices2, current_price, new_short_ema, new_long_ema, new_signal, new_avg_gain,
    new_avg_loss, sma20, var20, ma5_values, ma10_values⟩,
   ⟨new_macd, new_signal, macd_hist, rsi, sma20, var20, ma5, ma10⟩)

/-- The state after observing exactly one sample `p0` with no prior history:
the inline seeding of `calculate_realtime_technical_indicators`
(lines 722–745) specialised to a single realtime row — every EMA of one
sample is that sample, hence MACD = 0 and Signal = 0; the NaN rolling
statistics are stored as 0.0; the buffers hold the single price. -/
def init_state (p0 : ℚ) : TechState :=
  { prices := [p0], last_price := p0, short_ema := p0, long_ema := p0, signal := 0,
    avg_gain := 0, avg_loss := 0, sma20 := 0, var20 := 0,
    ma5_values := [p0], ma10_values := [p0] }

/-- Feeding `rest` one by one through the warm path starting from the state
seeded with `p0`. -/
def warm_run (p0 : ℚ) (rest : List ℚ) : TechState :=
  rest.foldl (fun s p => (warm_update s p).1) (init_state p0)

/-- Every quantity of the emitted snapshot is recoverable from the post-update
state; this derives the snapshot from a state. -/
def state_snapshot (s : TechState) : Snapshot :=
  let macd := (s.short_ema - s.long_ema) * 2
  { macd := macd
    signal := s.signal
    macd_hist := macd - s.signal
    rsi := if s.avg_loss = 0 then 100 else 100 - 100 / (1 + s.avg_gain / s.avg_loss)
    sma20 := s.sma20
    var20 := s.var20
    ma5 := if s.ma5_values.length = 5 then some (listMean s.ma5_values) else none
    ma10 := if s.ma10_values.length = 10 then some (listMean s.ma10_values) else none }

/-- The snapshot emitted at the last of the warm updates (equal, by
`warm_update_snd`, to the second component returned by the final
`warm_update`). -/
def warm_final (p0 : ℚ) (rest : List ℚ) : Snapshot :=
  state_snapshot (warm_run p0 rest)

/-! ## Forecast module

`src/indicator_analysis/gpr_predictor.py`: `prepare_training_data`
(lines 109–283, the sample-count gates at 176–179 and 224–226) and
`predict_future_prices` (lines 327–393).  The fitted Gaussian-process model
together with both standard scalers is abstracted as a deterministic function
from the feature row to the de-standardized `(y_pred, sigma)` pair; the
claims settled here are independent of its value. -/

/-- One row of the joined history/technical query.  The five core columns may
be NULL/NaN (`dropna(subset=core_columns)` filters on exactly these); every
other column is imputed rather than dropped, so it cannot affect the row
count and is omitted from the model. -/
structure HistRow where
  close_price : Option ℚ
  open_price : Option ℚ
  high_price : Option ℚ
  low_price : Option ℚ
  volume : Option ℚ
deriving DecidableEq

/-- A row surviving `df.dropna(subset=core_columns)`. -/
def core_complete (r : HistRow) : Bool :=
  r.close_price.isSome && r.open_price.isSome && r.high_price.isSome &&
    r.low_price.isSome && r.volume.isSome

/-- `prepare_training_data` on the fetched rows: returns `None` when fewer
than 30 rows were fetched (`len(price_data) < 30`), or when fewer than 30
rows survive the core-column cleaning (`len(df) < 30`); otherwise the cleaned
rows, from which `X` and `y` are built row by row. -/
def prepare_training_data (price_data : List HistRow) : Option (List HistRow) :=
  if price_data.length < 30 then none
  else
    let df := price_data.filter core_complete
    if df.length < 30 then none
    else some df

/-- One forecast row as appended by `predict_future_prices`:
`target_date = prediction_date + timedelta(days=day_offset)`, a 95% interval
`y_pred ± 1.96·sigma`, all rounded to 4 decimals. -/
structure ForecastRecord where
  day_offset : ℕ
  predicted_price : ℚ
  price_lower_bound : ℚ
  price_upper_bound : ℚ
  prediction_std : ℚ
deriving DecidableEq

/-- The `for day_offset in range(1, days + 1)` loop of
`predict_future_prices`, with `day_offset` starting at `k` and `d` steps to
go.  `last_features = last_features.copy()` re-binds the unchanged feature
row, so each iteration queries the model at the same input. -/
def forecast_loop (model : HistRow → ℚ × ℚ) (last_features : HistRow) :
    (k : ℕ) → (d : ℕ) → List ForecastRecord
  | _, 0 => []
  | k, d + 1 =>
      let y_pred := (model last_features).1
      let sigma := (model last_features).2
      { day_offset := k
        predicted_price := round4 y_pred
        price_lower_bound := round4 (y_pred - 196/100 * sigma)
        price_upper_bound := round4 (y_pred + 196/100 * sigma)
        prediction_std := round4 sigma } :: forecast_loop model last_features (k + 1) d

/-- `predict_future_prices`: prepares training data, re-checks
`len(X) < 30`, fits the model (abstracted into `model`), then runs the
forecast loop from the last feature row `X[-1:]`. -/
def predict_future_prices (model : HistRow → ℚ × ℚ) (price_data : List HistRow)
    (days : ℕ) : Option (List ForecastRecord) :=
  match prepare_training_data price_data with
  | none => none
  | some X =>
      if X.length < 30 then none
      else
        match X.getLast? with
        | none => none
        | some last_features => some (forecast_loop model last_features 1 days)

/-! ## Forecast-deviation alerts

`src/indicator_analysis/multi_factor_alert.py`: `check_gpr_deviation_alerts`
(lines 393–510) with the `alert_thresholds` defaults of lines 59–81
(`gpr_deviation_critical = 0.10`). -/

/-- Alert severity levels. -/
inductive AlertLevel
  | INFO
  | WARNING
  | CRITICAL
deriving DecidableEq

/-- The three alert types this check can emit. -/
inductive GprAlertKind
  | deviation_upper
  | deviation_lower
  | deviation_critical
deriving DecidableEq

/-- One alert dict appended by `check_gpr_deviation_alerts`. -/
structure GprAlert where
  kind : GprAlertKind
  level : AlertLevel
  deviation_pct : ℚ
deriving DecidableEq

/-- `check_gpr_deviation_alerts` once a prediction row and a current price
exist: `deviation_pct = abs(current - predicted) / predicted`; the
`if/elif/elif` ladder flags price above the upper bound (WARNING), else
below the lower bound (WARNING), else deviation at least
`gpr_deviation_critical` (CRITICAL). -/
def check_gpr_deviation_alerts (gpr_deviation_critical current_price
    predicted_price price_lower_bound price_upper_bound : ℚ) : List GprAlert :=
  let deviation_pct := |current_price - predicted_price| / predicted_price
  if price_upper_bound < current_price then
    [⟨.deviation_upper, .WARNING, deviation_pct⟩]
  else if current_price < price_lower_bound then
    [⟨.deviation_lower, .WARNING, deviation_pct⟩]
  else if gpr_deviation_critical ≤ deviation_pct then
    [⟨.deviation_critical, .CRITICAL, deviation_pct⟩]
  else []

/-! ## Decision fusion

`src/indicator_analysis/stock_analysis_decision.py`:
`analyze_realtime_indicators` (lines 338–432), `analyze_daily_indicators`,
`analyze_fundamental_data` and `calculate_comprehensive_score`
(lines 647–699); `buy_threshold = 60` from the `thresholds` dict
(lines 48–56). -/

/-- `score = max(0, min(100, score))`, the clamp every sub-analysis applies
before returning. -/
def clamp_0_100 (x : ℚ) : ℚ := max 0 (min 100 x)

/-- The score pattern shared by `analyze_realtime_indicators`,
`analyze_daily_indicators` and `analyze_fundamental_data`: a base of 50, a
sequence of additive adjustments (each `score += δ` / `score -= δ` that
fired, here abstracted as the list of applied deltas), then the clamp. -/
def sub_score (adjustments : List ℚ) : ℚ := clamp_0_100 (50 + adjustments.sum)

/-- `thresholds['buy_threshold']`. -/
def buy_threshold : ℚ := 60

/-- The score/can-buy part of the dict returned by
`calculate_comprehensive_score`. -/
structure DecisionResult where
  score : ℚ
  can_buy : Bool
deriving DecidableEq

/-- `calculate_comprehensive_score`: fixed weights 0.4/0.3/0.3, accumulated
only over the analyses that are present, renormalized by the effective
weight; all-absent returns score 0 and `can_buy = False`; otherwise
`can_buy = final_score >= buy_threshold`. -/
def calculate_comprehensive_score (realtime daily fundamental : Option ℚ) :
    DecisionResult :=
  let w_realtime : ℚ := 4/10
  let w_daily : ℚ := 3/10
  let w_fundamental : ℚ := 3/10
  let total_score :=
    (match realtime with | some s => s * w_realtime | none => 0) +
    (match daily with | some s => s * w_daily | none => 0) +
    (match fundamental with | some s => s * w_fundamental | none => 0)
  let effective_weight :=
    (if realtime.isSome then w_realtime else 0) +
    (if daily.isSome then w_daily else 0) +
    (if fundamental.isSome then w_fundamental else 0)
  if effective_weight = 0 then { score := 0, can_buy := false }
  else
    let final_score := total_score / effective_weight
    { score := final_score, can_buy := decide (buy_threshold ≤ final_score) }

/-! ## Auxiliary forms relating the two indicator paths

These are not translations of further source lines; they are the
generalized accumulators used to relate the vectorized cold series to the
warm recurrences by induction. -/

/-- The cold MACD series continued from running EMA values `s` (short) and
`l` (long): `(short - long) * 2` pointwise over the two continued EMA
series. -/
def macd_from (s l : ℚ) (xs : List ℚ) : List ℚ :=
  List.zipWith (fun a b => (a - b) * 2)
    (ewm_from (alpha 12) s xs) (ewm_from (alpha 26) l xs)

/-- One joint step of the (short EMA, long EMA, signal EMA) recurrences, the
scalar core shared by the warm path and the final column of the cold
series. -/
def macd_triple_step (t : ℚ × ℚ × ℚ) (p : ℚ) : ℚ × ℚ × ℚ :=
  let s := ema_step (alpha 12) t.1 p
  let l := ema_step (alpha 26) t.2.1 p
  (s, l, ema_step (alpha 9) t.2.2 ((s - l) * 2))

/-- One step of the warm RSI recurrence on the
`(avg_gain, avg_loss, last_price)` components alone. -/
def rsi_triple_step (t : ℚ × ℚ × ℚ) (p : ℚ) : ℚ × ℚ × ℚ :=
  let price_change := p - t.2.2
  let current_gain := if 0 < price_change then price_change else 0
  let current_loss := if 0 < price_change then 0 else -price_change
  ((t.1 * 13 + current_gain) / 14, (t.2.1 * 13 + current_loss) / 14, p)

/-! ## Concrete data used by witnesses and counterexamples -/

/-- Fixed concrete realtime window used to instantiate the detector theorems:
two rows, most recent first, with a +4% move on the most recent row. -/
def rt_ex : List RtRecord := [⟨1, 10, 5, 4⟩, ⟨0, 10, 5, 1⟩]

/-- The most recent row of `rt_ex`. -/
def rt_r0 : RtRecord := ⟨1, 10, 5, 4⟩

/-- A news item 10 minutes before its anomaly that mentions the stock and has
no stored sentiment: raw score 0.4 + 0.3 = 0.7. -/
def nw_close : NewsItem := ⟨-10, true, none⟩

/-- A news item 40 minutes before its anomaly that mentions the stock and has
no stored sentiment: raw score 0.3 + 0.3 = 0.6. -/
def nw_far : NewsItem := ⟨-40, true, none⟩

/-- A history row with all five core columns present. -/
def hist_row_good : HistRow := ⟨some 1, some 1, some 1, some 1, some 1⟩

/-- Ten usable history rows — below the 30-sample minimum. -/
def hist10 : List HistRow := List.replicate 10 hist_row_good

/-- Thirty usable history rows — exactly the 30-sample minimum. -/
def hist30 : List HistRow := List.replicate 30 hist_row_good

/-- Twenty-nine further closes after an initial 100: fifteen rises of +2 up to 130,
then fourteen falls of −1 down to 116.  The cold rolling RSI window at the
final sample sees only losses, while the warm exponential averages still
remember the rises. -/
def c1_tail : List ℚ :=
  [102, 104, 106, 108, 110, 112, 114, 116, 118, 120, 122, 124, 126, 128, 130,
   129, 128, 127, 126, 125, 124, 123, 122, 121, 120, 119, 118, 117, 116]

/-- The 30-sample price series of the C1 counterexample. -/
def c1_series : List ℚ := 100 :: c1_tail

/-- Twenty-nine further constant closes, for instantiating the equivalence
theorem. -/
def const_tail : List ℚ := List.replicate 29 (100 : ℚ)

/-! ## Lemmas about the anomaly detector -/

lemma detect_loop_eq_filter_map (pt vt : ℚ) (av : Option ℚ) (rs : List RtRecord) :
    detect_loop pt vt av rs = (rs.filter (is_anomaly_rec pt vt av)).map (mk_anomaly av) := by
  induction rs with
  | nil => rfl
  | cons r rs ih =>
      by_cases h : is_anomaly_rec pt vt av r
      · simp [detect_loop, List.filter_cons, h, ih]
      · simp [detect_loop, List.filter_cons, h, ih]

lemma mk_anomaly_inj (av : Option ℚ) {r r' : RtRecord} :
    mk_anomaly av r = mk_anomaly av r' → r = r' := by
  intro h
  have h1 := congrArg Anomaly.anomaly_time h
  have h2 := congrArg Anomaly.current_price h
  have h3 := congrArg Anomaly.volume h
  have h4 := congrArg Anomaly.price_change_pct h
  cases r; cases r'
  simp [mk_anomaly] at h1 h2 h3 h4
  simp_all

lemma is_anomaly_rec_mono {pt1 pt2 vt : ℚ} (h : pt1 ≤ pt2) (av : Option ℚ) (r : RtRecord) :
    is_anomaly_rec pt2 vt av r = true → is_anomaly_rec pt1 vt av r = true := by
  simp only [is_anomaly_rec, Bool.or_eq_true, Bool.and_eq_true, decide_eq_true_eq]
  rintro (h2 | h2)
  · exact Or.inl (le_trans h h2)
  · exact Or.inr h2

lemma is_anomaly_rec_iff (pt vt : ℚ) (av : Option ℚ) (r : RtRecord) :
    is_anomaly_rec pt vt av r = true ↔
      pt ≤ |r.change_pct| ∨ (vt ≤ volume_spike av r.volume ∧ (2:ℚ) ≤ |r.change_pct|) := by
  simp [is_anomaly_rec]

/-! ## Claim C3 -/

/-- C3: a sample within the examined window (the most recent 10 rows of a
window holding at least 2 rows) is flagged by `detect_price_anomalies` if and
only if its absolute price change is at least `price_change_threshold`, or
its volume-spike ratio is at least `volume_spike_threshold` and its absolute
price change is at least 2.0; and the flagged type is `surge` when the signed
change is positive and `plunge` otherwise. -/
theorem anomaly_flag_iff (pt vt : ℚ) (data : List RtRecord)
    (h2 : 2 ≤ data.length) (r : RtRecord) (hr : r ∈ data.take 10) :
    (mk_anomaly (avg_volume data) r ∈ detect_price_anomalies pt vt data ↔
      pt ≤ |r.change_pct| ∨
        (vt ≤ volume_spike (avg_volume data) r.volume ∧ (2:ℚ) ≤ |r.change_pct|)) ∧
    (mk_anomaly (avg_volume data) r).anomaly_type =
      (if 0 < r.change_pct then .surge else .plunge) := by
  refine ⟨?_, rfl⟩
  have hd : detect_price_anomalies pt vt data
      = (List.filter (is_anomaly_rec pt vt (avg_volume data)) (data.take 10)).map
          (mk_anomaly (avg_volume data)) := by
    rw [detect_price_anomalies, if_neg (by omega), detect_loop_eq_filter_map]
  rw [hd]
  constructor
  · intro hm
    rcases List.mem_map.1 hm with ⟨r', hr', he⟩
    obtain rfl : r' = r := mk_anomaly_inj _ he
    exact (is_anomaly_rec_iff _ _ _ _).1 (List.mem_filter.1 hr').2
  · intro hcond
    exact List.mem_map.2 ⟨r, List.mem_filter.2 ⟨hr, (is_anomaly_rec_iff _ _ _ _).2 hcond⟩, rfl⟩

/-- Witness for C3 at the concrete window `rt_ex` and its most recent row. -/
theorem anomaly_flag_iff_witness :
    (mk_anomaly (avg_volume rt_ex) rt_r0 ∈ detect_price_anomalies 3 (3/2) rt_ex ↔
      (3:ℚ) ≤ |rt_r0.change_pct| ∨
        ((3/2:ℚ) ≤ volume_spike (avg_volume rt_ex) rt_r0.volume ∧
          (2:ℚ) ≤ |rt_r0.change_pct|)) ∧
    (mk_anomaly (avg_volume rt_ex) rt_r0).anomaly_type =
      (if 0 < rt_r0.change_pct then .surge else .plunge) :=
  anomaly_flag_iff 3 (3/2) rt_ex (by decide) rt_r0 (by decide)

/-! ## Claim C4 -/

/-- C4: for a fixed sample window and volume threshold, raising the
price-change threshold never flags new samples: the anomalies flagged under
the larger threshold are a subset of those flagged under the smaller one, and
in particular their number never increases. -/
theorem anomaly_threshold_monotone (pt1 pt2 vt : ℚ) (data : List RtRecord)
    (h : pt1 ≤ pt2) :
    (∀ a ∈ detect_price_anomalies pt2 vt data, a ∈ detect_price_anomalies pt1 vt data) ∧
    (detect_price_anomalies pt2 vt data).length ≤
      (detect_price_anomalies pt1 vt data).length := by
  have hsub : (detect_price_anomalies pt2 vt data).Sublist
      (detect_price_anomalies pt1 vt data) := by
    by_cases hl : data.length < 2
    · simp [detect_price_anomalies, hl]
    · rw [detect_price_anomalies, if_neg hl, detect_price_anomalies, if_neg hl,
        detect_loop_eq_filter_map, detect_loop_eq_filter_map]
      exact ((data.take 10).monotone_filter_right
        (fun r => is_anomaly_rec_mono h (avg_volume data) r)).map _
  exact ⟨fun a ha => hsub.subset ha, hsub.length_le⟩

/-- Witness for C4 at thresholds 3 ≤ 4 over the concrete window `rt_ex`. -/
theorem anomaly_threshold_monotone_witness :
    (∀ a ∈ detect_price_anomalies 4 2 rt_ex, a ∈ detect_price_anomalies 3 2 rt_ex) ∧
    (detect_price_anomalies 4 2 rt_ex).length ≤ (detect_price_anomalies 3 2 rt_ex).length :=
  anomaly_threshold_monotone 3 4 2 rt_ex (by decide)

/-! ## Claim C9 -/

lemma sub_score_nonneg (l : List ℚ) : 0 ≤ sub_score l := le_max_left 0 _

lemma sub_score_le_100 (l : List ℚ) : sub_score l ≤ 100 := by
  rw [sub_score, clamp_0_100]
  rcases le_total (min 100 (50 + l.sum)) 0 with h | h
  · rw [max_eq_left h]
    norm_num
  · rw [max_eq_right h]
    exact min_le_left _ _

/-- C9: for every combination of available sub-analyses — each abstracted as
the list of additive adjustments it applied, clamped to [0,100] by
`sub_score` — the composite score of `calculate_comprehensive_score` lies in
[0,100], and `can_buy` holds exactly when the composite score reaches
`buy_threshold` (60), including the degenerate all-absent case (score 0,
`can_buy` false). -/
theorem comprehensive_score_bounds (ra da fa : Option (List ℚ)) :
    0 ≤ (calculate_comprehensive_score (ra.map sub_score) (da.map sub_score)
          (fa.map sub_score)).score ∧
    (calculate_comprehensive_score (ra.map sub_score) (da.map sub_score)
          (fa.map sub_score)).score ≤ 100 ∧
    ((calculate_comprehensive_score (ra.map sub_score) (da.map sub_score)
          (fa.map sub_score)).can_buy = true ↔
      buy_threshold ≤ (calculate_comprehensive_score (ra.map sub_score)
          (da.map sub_score) (fa.map sub_score)).score) := by
  rcases ra with _ | r <;> rcases da with _ | d <;> rcases fa with _ | f <;>
    simp only [Option.map_none', Option.map_some', calculate_comprehensive_score,
      Option.isSome_none, Option.isSome_some, if_true, if_false,
      buy_threshold, decide_eq_true_eq] <;>
    norm_num
  case none.none.some => exact ⟨sub_score_nonneg _, sub_score_le_100 _⟩
  case none.some.none => exact ⟨sub_score_nonneg _, sub_score_le_100 _⟩
  case some.none.none => exact ⟨sub_score_nonneg _, sub_score_le_100 _⟩
  case none.some.some =>
    have h1 := sub_score_nonneg d; have h2 := sub_score_le_100 d
    have h3 := sub_score_nonneg f; have h4 := sub_score_le_100 f
    refine ⟨div_nonneg (by linarith) (by norm_num), ?_⟩
    rw [div_le_iff₀ (by norm_num)]
    linarith
  case some.none.some =>
    have h1 := sub_score_nonneg r; have h2 := sub_score_le_100 r
    have h3 := sub_score_nonneg f; have h4 := sub_score_le_100 f
    refine ⟨div_nonneg (by linarith) (by norm_num), ?_⟩
    rw [div_le_iff₀ (by norm_num)]
    linarith
  case some.some.none =>
    have h1 := sub_score_nonneg r; have h2 := sub_score_le_100 r
    have h3 := sub_score_nonneg d; have h4 := sub_score_le_100 d
    refine ⟨div_nonneg (by linarith) (by norm_num), ?_⟩
    rw [div_le_iff₀ (by norm_num)]
    linarith
  case some.some.some =>
    have h1 := sub_score_nonneg r; have h2 := sub_score_le_100 r
    have h3 := sub_score_nonneg d; have h4 := sub_score_le_100 d
    have h5 := sub_score_nonneg f; have h6 := sub_score_le_100 f
    exact ⟨by linarith, by linarith⟩

/-! ## Lemmas about rounding and the correlation score -/

lemma round4_mono {x y : ℚ} (h : x ≤ y) : round4 x ≤ round4 y := by
  rw [round4, round4]
  have h2 : round (x * 10000) ≤ round (y * 10000) := by
    rw [round_eq, round_eq]
    exact Int.floor_mono (by linarith)
  have h3 : ((round (x * 10000) : ℤ) : ℚ) ≤ ((round (y * 10000) : ℤ) : ℚ) :=
    Int.cast_le.2 h2
  linarith

lemma round4_zero : round4 0 = 0 := by
  simp [round4]

lemma round4_one : round4 1 = 1 := by
  rw [round4]
  norm_num [round_eq]

lemma round4_three_tenths : round4 (3/10) = 3/10 := by
  rw [round4]
  norm_num [round_eq]

lemma raw_correlation_score_bounds (pc : ℚ) (n : NewsItem) :
    1/10 ≤ raw_correlation_score pc n ∧ raw_correlation_score pc n ≤ 1 := by
  obtain ⟨td, ms, snt⟩ := n
  rcases snt with _ | s <;>
    simp only [raw_correlation_score] <;> split_ifs <;> norm_num

lemma correlation_score_lt_raw {pc : ℚ} {n : NewsItem}
    (h : calculate_correlation_score pc n < 3/10) :
    raw_correlation_score pc n < 3/10 := by
  by_contra hc
  push_neg at hc
  have := round4_mono hc
  rw [round4_three_tenths] at this
  exact absurd (lt_of_le_of_lt this h) (lt_irrefl _)

lemma mem_build_correlations {ms pc : ℚ} {news : List NewsItem}
    {r : CorrelationRecord} (h : r ∈ build_correlations ms pc news) :
    ms ≤ r.correlation_score := by
  rcases List.mem_filterMap.1 h with ⟨n, _, hf⟩
  by_cases hs : ms ≤ calculate_correlation_score pc n
  · rw [if_pos hs] at hf
    cases hf
    exact hs
  · rw [if_neg hs] at hf
    cases hf

/-! ## Claim C5 -/

/-- C5: the correlation score always lies in [0,1]; every record retained
(and hence persisted) by the correlation loop has score at least
`min_correlation_score`; and with the default minimum 0.3, any candidate
scoring below 0.3 is still classified `unrelated`. -/
theorem correlation_score_in_unit
    : (∀ (pc : ℚ) (n : NewsItem),
        0 ≤ calculate_correlation_score pc n ∧ calculate_correlation_score pc n ≤ 1) ∧
      (∀ (ms pc : ℚ) (news : List NewsItem),
        ∀ r ∈ saved_correlations ms pc news, ms ≤ r.correlation_score) ∧
      (∀ (pc : ℚ) (n : NewsItem),
        calculate_correlation_score pc n < 3/10 →
          correlation_type_of pc n = .unrelated) := by
  refine ⟨fun pc n => ?_, fun ms pc news r hr => ?_, fun pc n h => ?_⟩
  · obtain ⟨h1, h2⟩ := raw_correlation_score_bounds pc n
    constructor
    · have := round4_mono (le_trans (by norm_num) h1 : (0:ℚ) ≤ _)
      rwa [round4_zero] at this
    · have := round4_mono h2
      rwa [round4_one] at this
  · have hr' : r ∈ build_correlations ms pc news := by
      rw [saved_correlations] at hr
      exact ((List.mergeSort_perm _ _).mem_iff).1 hr
    exact mem_build_correlations hr'
  · have hraw := correlation_score_lt_raw h
    rw [correlation_type_of]
    have h6 : ¬ (6/10 ≤ raw_correlation_score pc n) := by
      intro hc
      exact absurd (lt_of_le_of_lt (le_trans (by norm_num) hc) hraw) (lt_irrefl _)
    have h3 : ¬ (3/10 ≤ raw_correlation_score pc n) := fun hc =>
      absurd (lt_of_le_of_lt hc hraw) (lt_irrefl _)
    split_ifs <;> simp_all

/-- Witness for C5: the far, mention-free, sentiment-free candidate scores
0.1 < 0.3 and is classified `unrelated`. -/
theorem correlation_score_in_unit_witness :
    correlation_type_of 4 ⟨200, false, none⟩ = .unrelated :=
  correlation_score_in_unit.2.2 4 ⟨200, false, none⟩
    (by norm_num [calculate_correlation_score, raw_correlation_score, round4, round_eq])

/-! ## Claim C6 -/

/-- C6 counterexample: both of the two qualifying candidates are persisted —
`analyze_stock` applies no cap, so for a caller-selected cap of 1 a record
beyond the cap is still saved. -/
theorem saved_correlations_no_cap :
    1 < (saved_correlations (3/10) 4 [nw_close, nw_far]).length := by
  have hp := List.mergeSort_perm
    (build_correlations (3/10) 4 [nw_close, nw_far])
    (fun a b => decide (b.correlation_score ≤ a.correlation_score))
  rw [saved_correlations, hp.length_eq]
  norm_num [build_correlations, calculate_correlation_score, raw_correlation_score,
    nw_close, nw_far, round4, round_eq, List.filterMap]

/-- C6 amended: after scoring, **all** records meeting
`min_correlation_score` are retained and persisted — the saved list is a
permutation of the qualifying records, sorted by descending correlation
score; no cap is applied. -/
theorem saved_correlations_all_sorted (ms pc : ℚ) (news : List NewsItem) :
    (saved_correlations ms pc news).Perm (build_correlations ms pc news) ∧
    (saved_correlations ms pc news).Pairwise
      (fun a b => b.correlation_score ≤ a.correlation_score) ∧
    (∀ r ∈ saved_correlations ms pc news, ms ≤ r.correlation_score) := by
  refine ⟨List.mergeSort_perm _ _, ?_, fun r hr => ?_⟩
  · have hs := @List.sorted_mergeSort CorrelationRecord
      (fun a b : CorrelationRecord => decide (b.correlation_score ≤ a.correlation_score))
      (fun a b c hab hbc => by
        simp only [decide_eq_true_eq] at *
        exact le_trans hbc hab)
      (fun a b => by
        simp only [Bool.or_eq_true, decide_eq_true_eq]
        exact le_total _ _)
      (build_correlations ms pc news)
    exact hs.imp (by simp only [decide_eq_true_eq]; exact fun h => h)
  · have hr' : r ∈ build_correlations ms pc news := by
      rw [saved_correlations] at hr
      exact ((List.mergeSort_perm _ _).mem_iff).1 hr
    exact mem_build_correlations hr'

/-- Witness for C6's amended statement: the top retained record of the
concrete run meets the 0.3 minimum. -/
theorem saved_correlations_all_sorted_witness :
    (3/10 : ℚ) ≤ (⟨nw_close, 7/10, .cause⟩ : CorrelationRecord).correlation_score :=
  (saved_correlations_all_sorted (3/10) 4 [nw_close, nw_far]).2.2 _
    (by
      have hp := List.mergeSort_perm
        (build_correlations (3/10) 4 [nw_close, nw_far])
        (fun a b => decide (b.correlation_score ≤ a.correlation_score))
      rw [saved_correlations, hp.mem_iff]
      norm_num [build_correlations, calculate_correlation_score, raw_correlation_score,
        nw_close, nw_far, round4, round_eq, List.filterMap, correlation_type_of])

/-! ## Claim C7 -/

/-- C7: when the usable training window holds fewer than 30 samples — either
fewer than 30 rows fetched, or fewer than 30 surviving the core-column
cleaning — `predict_future_prices` reports insufficient data by returning
`none`: no `ForecastRecord` is emitted and no model output is consumed.  The
embedding is total, matching the source's catch-all that converts any
exception into `None`. -/
theorem insufficient_training_data (model : HistRow → ℚ × ℚ)
    (price_data : List HistRow) (days : ℕ)
    (h : price_data.length < 30 ∨ (price_data.filter core_complete).length < 30) :
    predict_future_prices model price_data days = none := by
  unfold predict_future_prices prepare_training_data
  rcases h with h | h
  · simp [h]
  · by_cases h0 : price_data.length < 30
    · simp [h0]
    · simp [h0, h]

/-- Witness for C7: ten usable rows yield no forecast. -/
theorem insufficient_training_data_witness :
    predict_future_prices (fun _ => (100, 0)) hist10 3 = none :=
  insufficient_training_data (fun _ => (100, 0)) hist10 3 (Or.inl (by decide))

/-! ## Claim C10 -/

lemma forecast_loop_fields (model : HistRow → ℚ × ℚ) (lf : HistRow) :
    ∀ (d k : ℕ),
      ((forecast_loop model lf k d).map fun r =>
          (r.predicted_price, r.price_lower_bound, r.price_upper_bound,
            r.prediction_std)) =
        List.replicate d
          (round4 (model lf).1, round4 ((model lf).1 - 196/100 * (model lf).2),
            round4 ((model lf).1 + 196/100 * (model lf).2), round4 (model lf).2) ∧
      (forecast_loop model lf k d).map (·.day_offset) = List.range' k d := by
  intro d
  induction d with
  | zero => intro k; simp [forecast_loop]
  | succ d ih =>
      intro k
      obtain ⟨ih1, ih2⟩ := ih (k + 1)
      refine ⟨?_, ?_⟩
      · simp only [forecast_loop, List.map_cons, List.replicate, ih1]
      · simp only [forecast_loop, List.map_cons, ih2, List.range']

/-- C10: every successful multi-step forecast issues records that agree in
predicted price, both interval bounds and standard deviation — only the
target-day offset varies, running 1..N — because the loop queries the model
with the unchanged last feature row at every step. -/
theorem forecast_records_constant (model : HistRow → ℚ × ℚ)
    (price_data : List HistRow) (days : ℕ) (preds : List ForecastRecord)
    (h : predict_future_prices model price_data days = some preds) :
    (∃ p lo hi sd,
      (preds.map fun r => (r.predicted_price, r.price_lower_bound,
          r.price_upper_bound, r.prediction_std)) =
        List.replicate days (p, lo, hi, sd)) ∧
    preds.map (·.day_offset) = List.range' 1 days := by
  unfold predict_future_prices at h
  rcases hp : prepare_training_data price_data with _ | X
  · rw [hp] at h
    cases h
  · rw [hp] at h
    dsimp only at h
    by_cases h30 : X.length < 30
    · rw [if_pos h30] at h
      cases h
    · rw [if_neg h30] at h
      rcases hl : X.getLast? with _ | lf
      · rw [hl] at h
        cases h
      · rw [hl] at h
        obtain rfl : forecast_loop model lf 1 days = preds := by
          cases h
          rfl
        obtain ⟨h1, h2⟩ := forecast_loop_fields model lf days 1
        exact ⟨⟨_, _, _, _, h1⟩, h2⟩

/-- Witness for C10 on a concrete 30-row window and a fixed model. -/
theorem forecast_records_constant_witness :
    (∃ p lo hi sd,
      ((forecast_loop (fun _ => ((100:ℚ), (0:ℚ))) hist_row_good 1 3).map fun r =>
          (r.predicted_price, r.price_lower_bound, r.price_upper_bound,
            r.prediction_std)) =
        List.replicate 3 (p, lo, hi, sd)) ∧
    (forecast_loop (fun _ => ((100:ℚ), (0:ℚ))) hist_row_good 1 3).map (·.day_offset) =
      List.range' 1 3 :=
  forecast_records_constant (fun _ => (100, 0)) hist30 3 _
    (by
      unfold predict_future_prices prepare_training_data
      rw [show hist30.filter core_complete = hist30 from by
        rw [hist30, List.filter_replicate]
        simp [hist_row_good, core_complete]]
      simp [hist30, hist_row_good, List.getLast?_replicate])

/-! ## Claim C8 -/

/-- C8 counterexample: predicted price 100 with interval [99, 101] and
current price 150 — the price is far above the upper bound and the relative
deviation 0.5 reaches `gpr_deviation_critical = 0.10` many times over, yet
the emitted alert's severity is WARNING, not CRITICAL. -/
theorem gpr_deviation_outside_only_warning :
    (101:ℚ) < 150 ∧
    (1/10 : ℚ) ≤ |(150:ℚ) - 100| / 100 ∧
    check_gpr_deviation_alerts (1/10) 150 100 99 101 =
      [⟨.deviation_upper, .WARNING, 1/2⟩] := by
  refine ⟨by norm_num, by norm_num, ?_⟩
  norm_num [check_gpr_deviation_alerts]

/-- C8 amended: a current price outside the 95% interval always yields
exactly one WARNING alert for the crossed side, regardless of how far
outside the price is; a CRITICAL alert is emitted only when the price lies
inside the interval and the relative deviation reaches
`gpr_deviation_critical`. -/
theorem gpr_deviation_severity (c p pp lo hi : ℚ) :
    (hi < p →
      check_gpr_deviation_alerts c p pp lo hi =
        [⟨.deviation_upper, .WARNING, |p - pp| / pp⟩]) ∧
    (¬ hi < p → p < lo →
      check_gpr_deviation_alerts c p pp lo hi =
        [⟨.deviation_lower, .WARNING, |p - pp| / pp⟩]) ∧
    (∀ a ∈ check_gpr_deviation_alerts c p pp lo hi,
      a.level = .CRITICAL → lo ≤ p ∧ p ≤ hi ∧ c ≤ |p - pp| / pp) := by
  refine ⟨fun h => by simp [check_gpr_deviation_alerts, h],
    fun h1 h2 => by simp [check_gpr_deviation_alerts, h1, h2], ?_⟩
  intro a ha hcrit
  by_cases h1 : hi < p
  · simp only [check_gpr_deviation_alerts, if_pos h1, List.mem_singleton] at ha
    subst ha
    cases hcrit
  · by_cases h2 : p < lo
    · simp only [check_gpr_deviation_alerts, if_neg h1, if_pos h2,
        List.mem_singleton] at ha
      subst ha
      cases hcrit
    · by_cases h3 : c ≤ |p - pp| / pp
      · exact ⟨le_of_not_lt h2, le_of_not_lt h1, h3⟩
      · simp only [check_gpr_deviation_alerts, if_neg h1, if_neg h2, if_neg h3] at ha
        cases ha

/-- Witness for C8's amended statement: price 105 above upper bound 101
yields the single upper-bound WARNING. -/
theorem gpr_deviation_severity_witness :
    check_gpr_deviation_alerts (1/10) 105 100 99 101 =
      [⟨.deviation_upper, .WARNING, |(105:ℚ) - 100| / 100⟩] :=
  (gpr_deviation_severity (1/10) 105 100 99 101).1 (by norm_num)

/-! ## Claim C2 -/

lemma warm_update_avg_loss_zero {s : TechState} {p : ℚ}
    (h0 : s.avg_loss = 0) (hle : s.last_price ≤ p) :
    ((warm_update s p).1).avg_loss = 0 := by
  simp only [warm_update]
  by_cases hpc : 0 < p - s.last_price
  · simp [hpc, h0]
  · have hz : p - s.last_price = 0 := le_antisymm (not_lt.1 hpc) (by linarith)
    simp [hpc, h0, hz]

lemma warm_update_last_price (s : TechState) (p : ℚ) :
    ((warm_update s p).1).last_price = p := by
  simp [warm_update]

lemma warm_run_avg_loss_zero :
    ∀ (xs : List ℚ) (s : TechState), s.avg_loss = 0 →
      List.Chain' (· ≤ ·) (s.last_price :: xs) →
      ((xs.foldl (fun s p => (warm_update s p).1) s).avg_loss = 0) := by
  intro xs
  induction xs with
  | nil => intro s h _; simpa using h
  | cons x xs ih =>
      intro s h hc
      rw [List.foldl_cons]
      rcases List.chain'_cons.1 hc with ⟨hle, hc2⟩
      refine ih _ (warm_update_avg_loss_zero h hle) ?_
      rw [warm_update_last_price]
      exact hc2

/-- C2: in the warm incremental RSI update, a zero updated average loss makes
the emitted RSI exactly 100; in particular, feeding any loss-free
(nondecreasing) price series through the warm path yields RSI exactly 100 at
the final sample. -/
theorem warm_rsi_zero_loss
    : (∀ (s : TechState) (p : ℚ), ((warm_update s p).1).avg_loss = 0 →
        ((warm_update s p).2).rsi = 100) ∧
      (∀ (p0 : ℚ) (xs : List ℚ), List.Chain' (· ≤ ·) (p0 :: xs) →
        (warm_final p0 xs).rsi = 100) := by
  constructor
  · intro s p h
    simp only [warm_update] at h ⊢
    rw [if_pos h]
  · intro p0 xs hc
    have h0 : (warm_run p0 xs).avg_loss = 0 := by
      rw [warm_run]
      exact warm_run_avg_loss_zero xs (init_state p0) rfl hc
    rw [warm_final, state_snapshot]
    simp [h0]

/-- Witness for C2: a concrete nondecreasing 15-sample series. -/
theorem warm_rsi_zero_loss_witness :
    (warm_final 1 [1, 2, 3, 4, 5, 6, 7, 8, 9, 10, 11, 12, 13, 14]).rsi = 100 :=
  warm_rsi_zero_loss.2 1 [1, 2, 3, 4, 5, 6, 7, 8, 9, 10, 11, 12, 13, 14]
    (by norm_num [List.chain'_cons])

/-! ## Lemmas relating the cold series to the warm recurrences -/

lemma getLast?_cons_of_getLast? {α : Type _} {c : α} {l : List α} {v : α}
    (h : l.getLast? = some v) : (c :: l).getLast? = some v := by
  cases l with
  | nil => cases h
  | cons y ys => rw [List.getLast?_cons_cons]; exact h

lemma ewm_from_cons (a e v : ℚ) (vs : List ℚ) :
    ewm_from a e (v :: vs) = ema_step a e v :: ewm_from a (ema_step a e v) vs := rfl

lemma ewm_from_getLast? (a : ℚ) :
    ∀ (xs : List ℚ) (x e : ℚ),
      (ewm_from a e (x :: xs)).getLast? = some (List.foldl (ema_step a) e (x :: xs)) := by
  intro xs
  induction xs with
  | nil => intro x e; rfl
  | cons y ys ih =>
      intro x e
      rw [ewm_from_cons, List.foldl_cons]
      exact getLast?_cons_of_getLast? (ih y (ema_step a e x))

lemma macd_from_cons (s l x : ℚ) (xs : List ℚ) :
    macd_from s l (x :: xs) =
      ((ema_step (alpha 12) s x - ema_step (alpha 26) l x) * 2) ::
        macd_from (ema_step (alpha 12) s x) (ema_step (alpha 26) l x) xs := rfl

lemma macd_from_getLast? :
    ∀ (xs : List ℚ) (x s l : ℚ),
      (macd_from s l (x :: xs)).getLast? =
        some ((List.foldl (ema_step (alpha 12)) s (x :: xs) -
               List.foldl (ema_step (alpha 26)) l (x :: xs)) * 2) := by
  intro xs
  induction xs with
  | nil => intro x s l; rfl
  | cons y ys ih =>
      intro x s l
      rw [macd_from_cons, List.foldl_cons, List.foldl_cons]
      exact getLast?_cons_of_getLast? (ih y _ _)

lemma signal_from_getLast? :
    ∀ (xs : List ℚ) (x s l sg : ℚ),
      (ewm_from (alpha 9) sg (macd_from s l (x :: xs))).getLast? =
        some ((List.foldl macd_triple_step (s, l, sg) (x :: xs)).2.2) := by
  intro xs
  induction xs with
  | nil => intro x s l sg; rfl
  | cons y ys ih =>
      intro x s l sg
      rw [macd_from_cons, ewm_from_cons, List.foldl_cons]
      exact getLast?_cons_of_getLast? (ih y _ _ _)

lemma macd_triple_fold_fst :
    ∀ (xs : List ℚ) (t : ℚ × ℚ × ℚ),
      (List.foldl macd_triple_step t xs).1 = List.foldl (ema_step (alpha 12)) t.1 xs := by
  intro xs
  induction xs with
  | nil => intro t; rfl
  | cons x xs ih =>
      intro t
      rw [List.foldl_cons, List.foldl_cons, ih]
      rfl

lemma macd_triple_fold_snd :
    ∀ (xs : List ℚ) (t : ℚ × ℚ × ℚ),
      (List.foldl macd_triple_step t xs).2.1 = List.foldl (ema_step (alpha 26)) t.2.1 xs := by
  intro xs
  induction xs with
  | nil => intro t; rfl
  | cons x xs ih =>
      intro t
      rw [List.foldl_cons, List.foldl_cons, ih]
      rfl

lemma warm_fold_triple :
    ∀ (xs : List ℚ) (s : TechState),
      ((xs.foldl (fun s p => (warm_update s p).1) s).short_ema,
       (xs.foldl (fun s p => (warm_update s p).1) s).long_ema,
       (xs.foldl (fun s p => (warm_update s p).1) s).signal) =
        List.foldl macd_triple_step (s.short_ema, s.long_ema, s.signal) xs := by
  intro xs
  induction xs with
  | nil => intro s; rfl
  | cons x xs ih =>
      intro s
      rw [List.foldl_cons, List.foldl_cons, ih ((warm_update s x).1)]
      rfl

lemma warm_fold_rsi_triple :
    ∀ (xs : List ℚ) (s : TechState),
      ((xs.foldl (fun s p => (warm_update s p).1) s).avg_gain,
       (xs.foldl (fun s p => (warm_update s p).1) s).avg_loss,
       (xs.foldl (fun s p => (warm_update s p).1) s).last_price) =
        List.foldl rsi_triple_step (s.avg_gain, s.avg_loss, s.last_price) xs := by
  intro xs
  induction xs with
  | nil => intro s; rfl
  | cons x xs ih =>
      intro s
      rw [List.foldl_cons, List.foldl_cons, ih ((warm_update s x).1)]
      rfl

lemma warm_fold_ma5 :
    ∀ (xs : List ℚ) (s : TechState),
      (xs.foldl (fun s p => (warm_update s p).1) s).ma5_values =
        xs.foldl (buffer_push 5) s.ma5_values := by
  intro xs
  induction xs with
  | nil => intro s; rfl
  | cons x xs ih =>
      intro s
      rw [List.foldl_cons, List.foldl_cons, ih ((warm_update s x).1)]
      rfl

lemma warm_fold_ma10 :
    ∀ (xs : List ℚ) (s : TechState),
      (xs.foldl (fun s p => (warm_update s p).1) s).ma10_values =
        xs.foldl (buffer_push 10) s.ma10_values := by
  intro xs
  induction xs with
  | nil => intro s; rfl
  | cons x xs ih =>
      intro s
      rw [List.foldl_cons, List.foldl_cons, ih ((warm_update s x).1)]
      rfl

lemma warm_fold_prices :
    ∀ (xs : List ℚ) (s : TechState),
      (xs.foldl (fun s p => (warm_update s p).1) s).prices =
        xs.foldl (buffer_push 100) s.prices := by
  intro xs
  induction xs with
  | nil => intro s; rfl
  | cons x xs ih =>
      intro s
      rw [List.foldl_cons, List.foldl_cons, ih ((warm_update s x).1)]
      rfl

lemma lastN_length {α : Type _} (n : ℕ) (l : List α) :
    (lastN n l).length = min n l.length := by
  rw [lastN, List.length_drop]
  omega

lemma buffer_push_lastN {cap : ℕ} (hcap : 1 ≤ cap) (fed : List ℚ) (p : ℚ) :
    buffer_push cap (lastN cap fed) p = lastN cap (fed ++ [p]) := by
  rcases le_or_lt cap fed.length with hle | hlt
  · have hlen : (lastN cap fed).length = cap := by rw [lastN_length]; omega
    rw [buffer_push]
    rw [if_pos (by rw [List.length_append, hlen, List.length_singleton]; omega)]
    rw [← List.drop_one, List.drop_append_of_le_length (by rw [hlen]; omega)]
    rw [lastN, lastN, List.drop_drop,
      List.drop_append_of_le_length (by rw [List.length_append]; simp; omega)]
    congr 2
    · rw [List.length_append, List.length_singleton]
      omega
  · have h0 : fed.length - cap = 0 := by omega
    rw [buffer_push, lastN, h0, List.drop_zero]
    rw [if_neg (by rw [List.length_append, List.length_singleton]; omega)]
    rw [lastN, List.length_append, List.length_singleton,
      show fed.length + 1 - cap = 0 from by omega, List.drop_zero]

lemma foldl_buffer_push {cap : ℕ} (hcap : 1 ≤ cap) :
    ∀ (xs fed : List ℚ),
      xs.foldl (buffer_push cap) (lastN cap fed) = lastN cap (fed ++ xs) := by
  intro xs
  induction xs with
  | nil => intro fed; rw [List.append_nil, List.foldl_nil]
  | cons x xs ih =>
      intro fed
      rw [List.foldl_cons, buffer_push_lastN hcap, ih (fed ++ [x]),
        List.append_assoc, List.singleton_append]

lemma lastN_lastN {α : Type _} {a b : ℕ} (hab : a ≤ b) (l : List α) :
    lastN a (lastN b l) = lastN a l := by
  rw [lastN, lastN, lastN, List.drop_drop, List.length_drop]
  congr 1
  omega

lemma cold_macd_series_cons (p0 : ℚ) (xs : List ℚ) :
    cold_macd_series (p0 :: xs) = 0 :: macd_from p0 p0 xs := by
  rw [cold_macd_series, ewm_series, ewm_series, List.zipWith_cons_cons, ← macd_from]
  norm_num

lemma cold_signal_series_cons (p0 : ℚ) (xs : List ℚ) :
    cold_signal_series (p0 :: xs) = 0 :: ewm_from (alpha 9) 0 (macd_from p0 p0 xs) := by
  rw [cold_signal_series, cold_macd_series_cons, ewm_series]

lemma ewm_from_length (a : ℚ) :
    ∀ (xs : List ℚ) (e : ℚ), (ewm_from a e xs).length = xs.length := by
  intro xs
  induction xs with
  | nil => intro e; rfl
  | cons x xs ih => intro e; rw [ewm_from_cons, List.length_cons, List.length_cons, ih]

lemma ewm_series_length (a : ℚ) (xs : List ℚ) :
    (ewm_series a xs).length = xs.length := by
  cases xs with
  | nil => rfl
  | cons x xs => rw [ewm_series, List.length_cons, List.length_cons, ewm_from_length]

lemma cold_macd_series_length (xs : List ℚ) :
    (cold_macd_series xs).length = xs.length := by
  rw [cold_macd_series, List.length_zipWith, ewm_series_length, ewm_series_length]
  omega

lemma cold_signal_series_length (xs : List ℚ) :
    (cold_signal_series xs).length = xs.length := by
  rw [cold_signal_series, ewm_series_length, cold_macd_series_length]

lemma zipWith_getLast? (f : ℚ → ℚ → ℚ) :
    ∀ (l1 l2 : List ℚ) (a b : ℚ), l1.length = l2.length →
      l1.getLast? = some a → l2.getLast? = some b →
      (List.zipWith f l1 l2).getLast? = some (f a b) := by
  intro l1
  induction l1 with
  | nil => intro l2 a b _ h1 _; cases h1
  | cons x xs ih =>
      intro l2 a b hlen h1 h2
      cases l2 with
      | nil => cases h2
      | cons y ys =>
          cases xs with
          | nil =>
              cases ys with
              | nil =>
                  rw [List.getLast?_singleton] at h1 h2
                  cases h1; cases h2
                  rfl
              | cons y2 ys2 => simp at hlen
          | cons x2 xs2 =>
              cases ys with
              | nil => simp at hlen
              | cons y2 ys2 =>
                  rw [List.zipWith_cons_cons]
                  rw [List.getLast?_cons_cons] at h1
                  rw [List.getLast?_cons_cons] at h2
                  refine getLast?_cons_of_getLast? (ih (y2 :: ys2) a b ?_ h1 h2)
                  simpa using hlen

lemma warm_run_prices (p0 : ℚ) (xs : List ℚ) :
    (warm_run p0 xs).prices = lastN 100 (p0 :: xs) := by
  rw [warm_run, warm_fold_prices]
  have h1 : (init_state p0).prices = lastN 100 [p0] := rfl
  rw [h1, foldl_buffer_push (by norm_num), List.singleton_append]

lemma warm_run_ma5_values (p0 : ℚ) (xs : List ℚ) :
    (warm_run p0 xs).ma5_values = lastN 5 (p0 :: xs) := by
  rw [warm_run, warm_fold_ma5]
  have h1 : (init_state p0).ma5_values = lastN 5 [p0] := rfl
  rw [h1, foldl_buffer_push (by norm_num), List.singleton_append]

lemma warm_run_ma10_values (p0 : ℚ) (xs : List ℚ) :
    (warm_run p0 xs).ma10_values = lastN 10 (p0 :: xs) := by
  rw [warm_run, warm_fold_ma10]
  have h1 : (init_state p0).ma10_values = lastN 10 [p0] := rfl
  rw [h1, foldl_buffer_push (by norm_num), List.singleton_append]

lemma warm_run_bollinger (p0 : ℚ) (xs : List ℚ) (hne : xs ≠ [])
    (h20 : 20 ≤ (p0 :: xs).length) :
    (warm_run p0 xs).sma20 = listMean (lastN 20 (p0 :: xs)) ∧
    (warm_run p0 xs).var20 = sq_dev_sum (lastN 20 (p0 :: xs)) / 20 := by
  rcases List.eq_nil_or_concat xs with rfl | ⟨ys, x, rfl⟩
  · exact absurd rfl hne
  · rw [List.concat_eq_append] at h20 ⊢
    rw [warm_run, List.foldl_append, List.foldl_cons, List.foldl_nil]
    set st := List.foldl (fun s p => (warm_update s p).1) (init_state p0) ys with hst
    have hpr : st.prices = lastN 100 (p0 :: ys) := warm_run_prices p0 ys
    have hwin : lastN 20 (buffer_push 100 st.prices x) = lastN 20 (p0 :: (ys ++ [x])) := by
      rw [hpr, buffer_push_lastN (by norm_num), List.cons_append,
        lastN_lastN (by norm_num)]
    have hlen : (lastN 20 (p0 :: (ys ++ [x]))).length = 20 := by
      rw [lastN_length]
      simp only [List.length_cons, List.length_append, List.length_singleton] at h20 ⊢
      omega
    constructor
    · show (warm_update st x).1.sma20 = _
      simp only [warm_update]
      rw [hwin, hlen]
      norm_num
    · show (warm_update st x).1.var20 = _
      simp only [warm_update]
      rw [hwin, hlen]
      norm_num

/-! ## Claim C1 (amended part) -/

/-- C1 amended: for every price series of length at least 30, the warm
incremental run from the single-sample seed reproduces the cold full
recompute exactly (not merely within tolerance) for the MACD, Signal and
MACD-histogram values, the MA5 and MA10 moving averages, and the Bollinger
middle value, at the final sample.  (The RSI and the Bollinger standard
deviation do **not** agree — see the counterexample theorem.) -/
theorem incremental_cold_equivalence (p0 : ℚ) (xs : List ℚ)
    (h : 30 ≤ (p0 :: xs).length) :
    cold_macd_last (p0 :: xs) = some (warm_final p0 xs).macd ∧
    cold_signal_last (p0 :: xs) = some (warm_final p0 xs).signal ∧
    cold_hist_last (p0 :: xs) = some (warm_final p0 xs).macd_hist ∧
    cold_ma 5 (p0 :: xs) = (warm_final p0 xs).ma5 ∧
    cold_ma 10 (p0 :: xs) = (warm_final p0 xs).ma10 ∧
    cold_sma20 (p0 :: xs) = some (warm_final p0 xs).sma20 := by
  cases xs with
  | nil => norm_num at h
  | cons x xs' =>
      have hn : 30 ≤ xs'.length + 2 := by
        simp only [List.length_cons] at h
        omega
      have htr : ((warm_run p0 (x :: xs')).short_ema, (warm_run p0 (x :: xs')).long_ema,
          (warm_run p0 (x :: xs')).signal)
          = List.foldl macd_triple_step (p0, p0, 0) (x :: xs') :=
        warm_fold_triple (x :: xs') (init_state p0)
      have hshort : (warm_run p0 (x :: xs')).short_ema
          = List.foldl (ema_step (alpha 12)) p0 (x :: xs') := by
        have h1 := congrArg Prod.fst htr
        rw [macd_triple_fold_fst] at h1
        exact h1
      have hlong : (warm_run p0 (x :: xs')).long_ema
          = List.foldl (ema_step (alpha 26)) p0 (x :: xs') := by
        have h1 := congrArg Prod.fst (congrArg Prod.snd htr)
        rw [macd_triple_fold_snd] at h1
        exact h1
      have hsig : (warm_run p0 (x :: xs')).signal
          = (List.foldl macd_triple_step (p0, p0, 0) (x :: xs')).2.2 :=
        congrArg Prod.snd (congrArg Prod.snd htr)
      have hm : (cold_macd_series (p0 :: x :: xs')).getLast?
          = some (((warm_run p0 (x :: xs')).short_ema -
              (warm_run p0 (x :: xs')).long_ema) * 2) := by
        rw [cold_macd_series_cons, hshort, hlong]
        exact getLast?_cons_of_getLast? (macd_from_getLast? xs' x p0 p0)
      have hg : (cold_signal_series (p0 :: x :: xs')).getLast?
          = some ((warm_run p0 (x :: xs')).signal) := by
        rw [cold_signal_series_cons, hsig]
        exact getLast?_cons_of_getLast? (signal_from_getLast? xs' x p0 p0 0)
      refine ⟨hm, hg, ?_, ?_, ?_, ?_⟩
      · have hlen2 : (cold_macd_series (p0 :: x :: xs')).length
            = (cold_signal_series (p0 :: x :: xs')).length := by
          rw [cold_macd_series_length, cold_signal_series_length]
        exact zipWith_getLast? (· - ·) _ _ _ _ hlen2 hm hg
      · have h5 : (warm_run p0 (x :: xs')).ma5_values = lastN 5 (p0 :: x :: xs') :=
          warm_run_ma5_values p0 (x :: xs')
        show cold_ma 5 (p0 :: x :: xs')
            = (if (warm_run p0 (x :: xs')).ma5_values.length = 5
               then some (listMean (warm_run p0 (x :: xs')).ma5_values) else none)
        simp only [cold_ma, h5, lastN_length, List.length_cons]
        rw [if_neg (by omega), if_pos (by omega)]
      · have h10 : (warm_run p0 (x :: xs')).ma10_values = lastN 10 (p0 :: x :: xs') :=
          warm_run_ma10_values p0 (x :: xs')
        show cold_ma 10 (p0 :: x :: xs')
            = (if (warm_run p0 (x :: xs')).ma10_values.length = 10
               then some (listMean (warm_run p0 (x :: xs')).ma10_values) else none)
        simp only [cold_ma, h10, lastN_length, List.length_cons]
        rw [if_neg (by omega), if_pos (by omega)]
      · show cold_sma20 (p0 :: x :: xs') = some ((warm_run p0 (x :: xs')).sma20)
        rw [(warm_run_bollinger p0 (x :: xs') (by simp)
          (by simp only [List.length_cons]; omega)).1]
        simp only [cold_sma20, List.length_cons]
        rw [if_neg (by omega)]

/-- Witness for C1's amended statement at a constant 30-sample series. -/
theorem incremental_cold_equivalence_witness :
    cold_macd_last (100 :: const_tail) = some (warm_final 100 const_tail).macd ∧
    cold_signal_last (100 :: const_tail) = some (warm_final 100 const_tail).signal ∧
    cold_hist_last (100 :: const_tail) = some (warm_final 100 const_tail).macd_hist ∧
    cold_ma 5 (100 :: const_tail) = (warm_final 100 const_tail).ma5 ∧
    cold_ma 10 (100 :: const_tail) = (warm_final 100 const_tail).ma10 ∧
    cold_sma20 (100 :: const_tail) = some (warm_final 100 const_tail).sma20 :=
  incremental_cold_equivalence 100 const_tail (by decide)

set_option maxRecDepth 8000 in
/-- C1 counterexample: on the 30-sample series `c1_series` (claim requires
length ≥ 30) the cold recompute's RSI at the final sample is exactly 0 (its
14-sample rolling window sees only losses) while the warm incremental RSI is
at least 1 (in fact ≈ 42: the exponential 1/14 smoothing still remembers the
earlier gains) — a divergence vastly beyond any 1e-6 relative tolerance.
Likewise the Bollinger squared standard deviations differ by a factor 19/20
(pandas sample `std`, ddof = 1, against `np.std`, ddof = 0): 1295/76 versus
259/16, a 5% relative gap, hence the bands `sma ± 2σ` differ far beyond
1e-6 relative as well. -/
theorem incremental_cold_divergence :
    30 ≤ c1_series.length ∧
    cold_rsi c1_series = some 0 ∧
    1 ≤ (warm_final 100 c1_tail).rsi ∧
    cold_var20 c1_series = some (1295/76) ∧
    (warm_final 100 c1_tail).var20 = 259/16 ∧
    (1/1000000 : ℚ) * (1295/76) < |1295/76 - 259/16| := by
  refine ⟨by decide, ?_, ?_, ?_, ?_,
    by rw [abs_of_pos (by norm_num : (0:ℚ) < 1295/76 - 259/16)]; norm_num⟩
  · norm_num [cold_rsi, cold_avg_gain, cold_avg_loss, price_deltas, lastN,
      listMean, c1_series, c1_tail, max_def]
  · have htr := warm_fold_rsi_triple c1_tail (init_state 100)
    have hga := congrArg Prod.fst htr
    have hlo := congrArg Prod.fst (congrArg Prod.snd htr)
    dsimp only at hga hlo
    show (1:ℚ) ≤ (if (warm_run 100 c1_tail).avg_loss = 0 then (100:ℚ)
      else 100 - 100 / (1 + (warm_run 100 c1_tail).avg_gain /
        (warm_run 100 c1_tail).avg_loss))
    rw [show (warm_run 100 c1_tail).avg_gain
        = (List.foldl rsi_triple_step ((init_state 100).avg_gain,
            (init_state 100).avg_loss, (init_state 100).last_price) c1_tail).1
      from hga]
    rw [show (warm_run 100 c1_tail).avg_loss
        = (List.foldl rsi_triple_step ((init_state 100).avg_gain,
            (init_state 100).avg_loss, (init_state 100).last_price) c1_tail).2.1
      from hlo]
    norm_num [init_state, rsi_triple_step, c1_tail, List.foldl]
  · norm_num [cold_var20, c1_series, c1_tail, sq_dev_sum, lastN, listMean]
  · have hb := (warm_run_bollinger 100 c1_tail (by decide) (by decide)).2
    show (warm_run 100 c1_tail).var20 = 259/16
    rw [hb]
    norm_num [sq_dev_sum, lastN, listMean, c1_tail]

end StockCore
